import Mathlib

/-!
Verification of the shortsAI video composition pipeline.

The definitions below are a shallow embedding of the Python sources:
`src/voice_synthesizer.py` (duration estimation, synthesis fallback ladder),
`src/video_generator.py` (markup parsing, page compositing, timeline
assembly, audio mixing with background music) and the relevant caller logic
in `src/main.py`.  Machine floats are modelled as exact rationals; Python's
`int(...)` truncation is modelled by `pyInt`.
-/

namespace ShortsAI

/-- Python `int(x)` truncates toward zero. -/
def pyInt (x : ℚ) : ℤ := if 0 ≤ x then ⌊x⌋ else ⌈x⌉

/-- The whitespace characters stripped by Python `str.strip()` on the
ASCII range (space, tab, newline, carriage return, vertical tab, form feed). -/
def pyIsSpace (c : Char) : Bool :=
  c = ' ' || c = '\t' || c = '\n' || c = '\r' || c = '\x0b' || c = '\x0c'

/-- Python `not text.strip()`: the string is empty or whitespace-only. -/
def stripIsEmpty (s : String) : Bool := s.data.all pyIsSpace

/-! ### Audio duration estimator (`voice_synthesizer.estimate_audio_duration`) -/

/-- `estimate_audio_duration` from `src/voice_synthesizer.py` (lines 213-235):
empty / whitespace-only text returns 0.5; otherwise 0.4 per non-space
non-newline character plus 0.3 per pause punctuation mark, clamped to
[1, 10], divided by the configured speed scale. -/
def estimate_audio_duration (speed_scale : ℚ) (text : String) : ℚ :=
  if stripIsEmpty text then 1/2
  else
    let char_count := (text.data.filter (fun c => c != ' ' && c != '\n')).length
    let base_duration : ℚ := (char_count : ℚ) * (2/5)
    let pause_count :=
      text.data.count '、' + text.data.count '。' +
      text.data.count '！' + text.data.count '？'
    let pause_duration : ℚ := (pause_count : ℚ) * (3/10)
    let total_duration := max 1 (min (base_duration + pause_duration) 10)
    total_duration / speed_scale

/-! ### Voice synthesis fallback ladder (`voice_synthesizer.synthesize_voice`)

The external collaborators (VOICEVOX query, synthesis request, silent-file
write) are modelled as boolean success oracles. -/

/-- `_create_silent_audio` from `src/voice_synthesizer.py` (lines 175-201):
returns `(True, duration)` when the silent file could be written and
`(False, duration)` when even that failed. -/
def create_silent_audio (writeOk : Bool) (duration : ℚ) : Bool × ℚ :=
  if writeOk then (true, duration) else (false, duration)

/-- `synthesize_voice` from `src/voice_synthesizer.py` (lines 57-90):
blank text falls back to a 1.0-second silent file; a failed audio query or
failed synthesis request falls back to a 3.0-second silent file; on full
success the real audio duration is returned with `True`. -/
def synthesize_voice (text : String) (queryOk synthOk writeOk : Bool)
    (realDur : ℚ) : Bool × ℚ :=
  if stripIsEmpty text then create_silent_audio writeOk 1
  else if queryOk = false then create_silent_audio writeOk 3
  else if synthOk = false then create_silent_audio writeOk 3
  else (true, realDur)

/-- The caller fallback in `src/main.py` (lines 171-174): the estimator is
consulted only when `synthesize_voice` reported failure. -/
def main_page_duration (synth : Bool × ℚ) (estimated : ℚ) : ℚ :=
  if synth.1 then synth.2 else estimated

/-! ### Markup parsing (`video_generator._parse_and_create_colored_text`)

The regex `##([^#]*)##` is embedded as an explicit scan: at each position,
a match requires two hash marks, a (possibly empty) run of non-hash
characters, and two closing hash marks; matches are found left to right and
do not overlap, and a failed attempt advances by one character — exactly the
semantics of `re.sub` / `re.finditer` for this pattern (the character class
`[^#]*` admits no backtracking). -/

/-- Attempt to match `##([^#]*)##` at the head of the character list,
returning the captured group and the remainder after the match. -/
def tryMatch : List Char → Option (List Char × List Char)
  | c1 :: c2 :: rest =>
    if c1 = '#' ∧ c2 = '#' then
      match rest.dropWhile (fun c => c != '#') with
      | d1 :: d2 :: rem =>
        if d1 = '#' ∧ d2 = '#' then
          some (rest.takeWhile (fun c => c != '#'), rem)
        else none
      | _ => none
    else none
  | _ => none

/-- Fuel-indexed scan implementing `re.sub(r'##([^#]*)##', spaces, text)`:
each matched span (markers included) is replaced by spaces of the inner
content's length; fuel at least the list length always suffices. -/
def subAuxF : ℕ → List Char → List Char
  | 0, cs => cs
  | _ + 1, [] => []
  | fuel + 1, c :: rest =>
    match tryMatch (c :: rest) with
    | some (content, rem) => List.replicate content.length ' ' ++ subAuxF fuel rem
    | none => c :: subAuxF fuel rest

/-- The `normal_text` of `_parse_and_create_colored_text`
(`src/video_generator.py` line 452). -/
def normal_text_sub (cs : List Char) : List Char := subAuxF cs.length cs

/-- Fuel-indexed scan implementing `re.finditer(r'##([^#]*)##', text)`:
the list of `(match.start(), inner content)` pairs. -/
def scanAuxF : ℕ → List Char → ℕ → List (ℕ × List Char)
  | 0, _, _ => []
  | _ + 1, [], _ => []
  | fuel + 1, c :: rest, pos =>
    match tryMatch (c :: rest) with
    | some (content, rem) =>
      (pos, content) :: scanAuxF fuel rem (pos + content.length + 4)
    | none => scanAuxF fuel rest (pos + 1)

/-- All `##([^#]*)##` matches of a text, as `(start offset, content)`. -/
def red_matches (cs : List Char) : List (ℕ × List Char) := scanAuxF cs.length cs 0

/-- Python `'##' in text`. -/
def hasDoubleHash : List Char → Bool
  | c1 :: c2 :: rest => (c1 = '#' && c2 = '#') || hasDoubleHash (c2 :: rest)
  | _ => false

/-- The blanking loop of `_parse_and_create_colored_text`
(`src/video_generator.py` lines 478-481): every character except newline
becomes a space. -/
def blankNonNewline (cs : List Char) : List Char :=
  cs.map fun c => if c = '\n' then c else ' '

/-- The restore loop of `_parse_and_create_colored_text`
(`src/video_generator.py` lines 488-490): the span content is written back
one character at a time, skipping out-of-range offsets (`List.set` is a
no-op out of range, matching the `start + i < len(red_text)` guard). -/
def writeChars : List Char → ℕ → List Char → List Char
  | acc, _, [] => acc
  | acc, i, c :: cc => writeChars (acc.set i c) (i + 1) cc

/-- The `red_text` of `_parse_and_create_colored_text`
(`src/video_generator.py` lines 475-492): an all-spaces (newline-preserving)
copy of the original text with each span's content written back starting at
`match.start() + 2`. -/
def red_text_of (cs : List Char) : List Char :=
  (red_matches cs).foldl (fun acc m => writeChars acc (m.1 + 2) m.2) (blankNonNewline cs)

/-- `_parse_and_create_colored_text` from `src/video_generator.py`
(lines 418-531), reduced to the styled runs it emits: each run is the text
of one `TextClip` together with its highlighted flag.  Without `##` the
text is emitted unchanged as one normal run; otherwise the normal
(space-substituted) run always, and the red run only when it contains a
non-whitespace character. -/
def parse_and_create_colored_text (text : String) : List (String × Bool) :=
  if hasDoubleHash text.data = false then [(text, false)]
  else
    let normal := String.mk (normal_text_sub text.data)
    if (red_matches text.data).isEmpty = false then
      let red := String.mk (red_text_of text.data)
      if (red.data.all pyIsSpace) = false then [(normal, false), (red, true)]
      else [(normal, false)]
    else [(normal, false)]

/-! ### Page-specific image layout
(`video_generator._create_page_specific_image_clip`, lines 319-366) -/

/-- The image layer's geometry: page 1 yields a statically placed square
(horizontally centered, integer top edge); pages other than 1 yield a
cropped square that pans horizontally (width and height in pixels, fixed
integer y). -/
inductive ImagePlacement where
  | staticCentered (size : ℤ) (top : ℤ)
  | panned (imageW imageH : ℚ) (y : ℤ)
  deriving DecidableEq, Repr

/-- `_create_page_specific_image_clip` from `src/video_generator.py`
(lines 319-366): page 1 scales the image to a `int(width * 0.55)` square
placed at `('center', int(height * 0.7 - target_size / 2))`; other pages
resize to a 1300-pixel square, center-crop the height to 900 pixels and fix
`y = int(height * 0.1)` (the pan itself is `move_func` below). -/
def create_page_specific_image_clip (w h : ℚ) (page_number : ℕ) : ImagePlacement :=
  if page_number = 1 then
    let target_size := pyInt (w * (55/100))
    ImagePlacement.staticCentered target_size (pyInt (h * (7/10) - (target_size : ℚ) / 2))
  else
    let crop_height : ℚ := 900
    let y_position := pyInt (h * (1/10))
    ImagePlacement.panned 1300 crop_height y_position

/-- The vertical crop start produced by `crop(y_center=square/2, height=crop)`
in the pages-after-1 branch: `y1 = y_center - height/2`. -/
def crop_y1 (squareH cropH : ℚ) : ℚ := squareH / 2 - cropH / 2

/-- The pan animation `move_func` of `_create_page_specific_image_clip`
(`src/video_generator.py` lines 350-357): the x coordinate at time `t`,
interpolated from `width - imageWidth` at `t = 0` to `0` at `t = duration`. -/
def move_func_x (w cropped_w duration t : ℚ) : ℚ :=
  let start_x := w - cropped_w
  let end_x : ℚ := 0
  start_x + (end_x - start_x) * (t / duration)

/-! ### Page compositing (`video_generator._create_page_video`, lines 145-181) -/

/-- One visual layer of a page clip. -/
inductive Layer where
  | whiteBackground (durationSec : ℚ)
  | pageImage (placement : ImagePlacement)
  | caption (txt : String) (highlighted : Bool) (y : ℤ)
  deriving DecidableEq, Repr

/-- One page record, as assembled by `create_page_data`
(`src/video_generator.py` lines 600-611): the flags record whether the
image / audio files named by the record exist and are readable. -/
structure Page where
  text : String
  imageOk : Bool
  audioOk : Bool
  duration : ℚ
  pageNumber : ℕ
  deriving DecidableEq, Repr

/-- The composed visual output for one page: its start offset on the master
timeline, its duration, and its ordered layers (later layers on top). -/
structure PageClip where
  start : ℚ
  duration : ℚ
  layers : List Layer
  deriving DecidableEq, Repr

/-- Python `text.replace('=', '')` used by `_create_text_clips_with_highlights`
(`src/video_generator.py` line 620). -/
def stripEquals (s : String) : String := String.mk (s.data.filter (fun c => c != '='))

/-- `_create_positioned_text_clips` from `src/video_generator.py`
(lines 368-416): the caption y anchor is `int(height * 0.15)` on page 1 and
`int(height * 0.65)` afterwards; page 1 first strips `=` markers
(via `_create_text_clips_with_highlights`), and both branches feed the text
through `_parse_and_create_colored_text`. -/
def create_positioned_text_clips (h : ℚ) (text : String) (page_number : ℕ) : List Layer :=
  let text_y_position :=
    if page_number = 1 then pyInt (h * (15/100)) else pyInt (h * (65/100))
  let runs :=
    if page_number = 1 then parse_and_create_colored_text (stripEquals text)
    else parse_and_create_colored_text text
  runs.map fun r => Layer.caption r.1 r.2 text_y_position

/-- The layer list assembled by `_create_page_video`
(`src/video_generator.py` lines 152-168): the white background is
unconditional, the image layer requires an existing image file, and caption
layers require nonempty text. -/
def page_layers (w h : ℚ) (page : Page) : List Layer :=
  [Layer.whiteBackground page.duration]
  ++ (if page.imageOk then
        [Layer.pageImage (create_page_specific_image_clip w h page.pageNumber)]
      else [])
  ++ (if page.text = "" then [] else create_positioned_text_clips h page.text page.pageNumber)

/-- `_create_page_video` from `src/video_generator.py` (lines 145-181):
composes the layers into a page clip started at `start_time` with the
page's duration; returns nothing only when no layer was produced. -/
def create_page_video (w h : ℚ) (page : Page) (start_time : ℚ) : Option PageClip :=
  let clips := page_layers w h page
  if clips = [] then none
  else some { start := start_time, duration := page.duration, layers := clips }

/-! ### Timeline assembly (`video_generator.generate_video`, lines 82-110) -/

/-- The per-page video clips built by the loop of `generate_video`: each
page's clip is created at the running `current_time`, which then advances
by the page's duration. -/
def generate_video_clips (w h : ℚ) : List Page → ℚ → List (Option PageClip)
  | [], _ => []
  | p :: rest, t => create_page_video w h p t :: generate_video_clips w h rest (t + p.duration)

/-- The narration audio placements of the loop of `generate_video`
(lines 96-101): a page with an existing audio file contributes a narration
track started at the same running `current_time`. -/
def generate_audio_starts : List Page → ℚ → List (Option ℚ)
  | [], _ => []
  | p :: rest, t =>
    (if p.audioOk then some t else none) :: generate_audio_starts rest (t + p.duration)

/-- The final value of `current_time` after the loop of `generate_video`:
the total timeline length handed to the audio mixer. -/
def totalTimeline : List Page → ℚ → ℚ
  | [], t => t
  | p :: rest, t => totalTimeline rest (t + p.duration)

/-- The start offset of page `i` (0-based): the sum of the durations of the
pages before it. -/
def pageStart (pages : List Page) (i : ℕ) : ℚ :=
  ((pages.take i).map Page.duration).sum

/-- The duration of a `CompositeVideoClip`: the latest end time among its
clips (clips that failed to build are skipped by `generate_video`). -/
def composite_video_duration (clips : List (Option PageClip)) : ℚ :=
  ((clips.filterMap id).map (fun c => c.start + c.duration)).foldr max 0

/-! ### Audio mixing (`video_generator._create_final_audio_with_bgm`,
lines 533-580) -/

/-- The lead-in trim (`src/video_generator.py` lines 550-552): the first
3 seconds are cut only when the source is longer than 3 seconds. -/
def bgm_trimmed (bgmDur : ℚ) : ℚ := if bgmDur > 3 then bgmDur - 3 else bgmDur

/-- The duration of the background-music track after the fitting steps of
`_create_final_audio_with_bgm` (lines 550-561): trim the lead-in, then
truncate with `subclip(0, total_duration)` when longer than the timeline,
or concatenate `int(total/duration) + 1` copies and truncate when shorter
(`subclip(0, t)` of a clip of length `L` yields `min L t`). -/
def bgm_fit_duration (bgmDur totalDur : ℚ) : ℚ :=
  let d1 := bgm_trimmed bgmDur
  if d1 > totalDur then totalDur
  else if d1 < totalDur then
    let loops_needed : ℤ := pyInt (totalDur / d1) + 1
    min ((loops_needed : ℚ) * d1) totalDur
  else d1

/-- An audio track as `(start offset, duration)`. -/
abbrev AudioTrack := ℚ × ℚ

/-- `_create_final_audio_with_bgm` from `src/video_generator.py`
(lines 533-580), reduced to the track list of the returned
`CompositeAudioClip`: when the bgm file exists the fitted bgm track
(starting at 0) is appended to the narration tracks; when it is missing the
narration tracks are returned unchanged. -/
def create_final_audio_with_bgm (bgmExists : Bool) (bgmDur : ℚ)
    (narration : List AudioTrack) (totalDur : ℚ) : List AudioTrack :=
  if bgmExists then narration ++ [(0, bgm_fit_duration bgmDur totalDur)]
  else narration

/-- The duration of a `CompositeAudioClip`: the latest end time among its
tracks. -/
def composite_audio_duration (tracks : List AudioTrack) : ℚ :=
  (tracks.map (fun p => p.1 + p.2)).foldr max 0

/-! ## Helper lemmas about the markup scanner -/

theorem tryMatch_eq_some {cs content rem : List Char}
    (h : tryMatch cs = some (content, rem)) :
    cs = '#' :: '#' :: (content ++ '#' :: '#' :: rem) := by
  match cs with
  | [] => simp [tryMatch] at h
  | [c] => simp [tryMatch] at h
  | c1 :: c2 :: rest =>
    rw [tryMatch] at h
    split at h
    next hc =>
      obtain ⟨hc1, hc2⟩ := hc
      subst hc1; subst hc2
      split at h
      next d1 d2 rem2 hd =>
        split at h
        next hdd =>
          obtain ⟨h1, h2⟩ := hdd
          subst h1; subst h2
          simp only [Option.some.injEq, Prod.mk.injEq] at h
          obtain ⟨hcontent, hrem⟩ := h
          subst hcontent; subst hrem
          have hsplit := List.takeWhile_append_dropWhile
            (p := fun c => c != '#') (l := rest)
          rw [hd] at hsplit
          rw [hsplit]
        next => exact absurd h (by simp)
      next hd => exact absurd h (by simp)
    next hc => exact absurd h (by simp)

theorem tryMatch_length {cs content rem : List Char}
    (h : tryMatch cs = some (content, rem)) :
    cs.length = content.length + rem.length + 4 := by
  have := tryMatch_eq_some h
  subst this
  simp
  omega

theorem tryMatch_count_nl {cs content rem : List Char}
    (h : tryMatch cs = some (content, rem)) :
    cs.count '\n' = content.count '\n' + rem.count '\n' := by
  have := tryMatch_eq_some h
  subst this
  simp [List.count_cons, List.count_append]

theorem count_nl_replicate_space (k : ℕ) :
    (List.replicate k ' ').count '\n' = 0 := by
  induction k with
  | zero => rfl
  | succ n ih => simp [List.replicate_succ, List.count_cons, ih]

theorem subAuxF_scanAuxF_length :
    ∀ (fuel : ℕ) (cs : List Char) (pos : ℕ), cs.length ≤ fuel →
      (subAuxF fuel cs).length + 4 * (scanAuxF fuel cs pos).length = cs.length := by
  intro fuel
  induction fuel with
  | zero =>
    intro cs pos hle
    have : cs = [] := List.eq_nil_of_length_eq_zero (Nat.le_zero.mp hle)
    subst this
    simp [subAuxF, scanAuxF]
  | succ n ih =>
    intro cs pos hle
    cases cs with
    | nil => simp [subAuxF, scanAuxF]
    | cons c rest =>
      cases htm : tryMatch (c :: rest) with
      | none =>
        simp only [subAuxF, scanAuxF, htm]
        have hrest : rest.length ≤ n := by
          simp only [List.length_cons] at hle; omega
        have := ih rest (pos + 1) hrest
        simp only [List.length_cons]
        omega
      | some p =>
        obtain ⟨content, rem⟩ := p
        have hlen := tryMatch_length htm
        simp only [List.length_cons] at hle hlen
        have hrem : rem.length ≤ n := by omega
        simp only [subAuxF, scanAuxF, htm, List.length_append,
          List.length_replicate, List.length_cons]
        have := ih rem (pos + content.length + 4) hrem
        omega

theorem subAuxF_scanAuxF_count_nl :
    ∀ (fuel : ℕ) (cs : List Char) (pos : ℕ), cs.length ≤ fuel →
      (subAuxF fuel cs).count '\n' +
        ((scanAuxF fuel cs pos).map (fun m => m.2.count '\n')).sum = cs.count '\n' := by
  intro fuel
  induction fuel with
  | zero =>
    intro cs pos hle
    have : cs = [] := List.eq_nil_of_length_eq_zero (Nat.le_zero.mp hle)
    subst this
    simp [subAuxF, scanAuxF]
  | succ n ih =>
    intro cs pos hle
    cases cs with
    | nil => simp [subAuxF, scanAuxF]
    | cons c rest =>
      cases htm : tryMatch (c :: rest) with
      | none =>
        simp only [subAuxF, scanAuxF, htm]
        have hrest : rest.length ≤ n := by
          simp only [List.length_cons] at hle; omega
        have := ih rest (pos + 1) hrest
        simp only [List.count_cons]
        omega
      | some p =>
        obtain ⟨content, rem⟩ := p
        have hlen := tryMatch_length htm
        have hcnt := tryMatch_count_nl htm
        simp only [List.length_cons] at hle hlen
        have hrem : rem.length ≤ n := by omega
        simp only [subAuxF, scanAuxF, htm, List.count_append,
          count_nl_replicate_space, List.map_cons, List.sum_cons]
        have := ih rem (pos + content.length + 4) hrem
        omega

theorem writeChars_length :
    ∀ (content acc : List Char) (i : ℕ),
      (writeChars acc i content).length = acc.length := by
  intro content
  induction content with
  | nil => intro acc i; rfl
  | cons c cc ih =>
    intro acc i
    rw [writeChars, ih, List.length_set]

theorem foldl_writeChars_length :
    ∀ (ms : List (ℕ × List Char)) (acc : List Char),
      (ms.foldl (fun a m => writeChars a (m.1 + 2) m.2) acc).length = acc.length := by
  intro ms
  induction ms with
  | nil => intro acc; rfl
  | cons m tl ih =>
    intro acc
    rw [List.foldl_cons, ih, writeChars_length]

theorem red_text_of_length (cs : List Char) :
    (red_text_of cs).length = cs.length := by
  rw [red_text_of, foldl_writeChars_length, blankNonNewline, List.length_map]

/-! ## Helper lemmas about truncation and the timeline -/

theorem pyInt_intCast (k : ℤ) : pyInt (k : ℚ) = k := by
  unfold pyInt
  split
  · exact Int.floor_intCast k
  · exact Int.ceil_intCast k

theorem pyInt_of_nonneg {x : ℚ} (hx : 0 ≤ x) : pyInt x = ⌊x⌋ := by
  unfold pyInt
  exact if_pos hx

theorem pageStart_zero (pages : List Page) : pageStart pages 0 = 0 := by
  simp [pageStart]

theorem pageStart_cons_succ (p : Page) (rest : List Page) (j : ℕ) :
    pageStart (p :: rest) (j + 1) = p.duration + pageStart rest j := by
  simp [pageStart, List.take_succ_cons]

theorem pageStart_succ (pages : List Page) (i : ℕ) (p : Page)
    (hp : pages[i]? = some p) :
    pageStart pages (i + 1) = pageStart pages i + p.duration := by
  unfold pageStart
  rw [List.take_succ, hp]
  simp

theorem totalTimeline_eq (pages : List Page) :
    ∀ t : ℚ, totalTimeline pages t = t + (pages.map Page.duration).sum := by
  induction pages with
  | nil => intro t; simp [totalTimeline]
  | cons p rest ih =>
    intro t
    rw [totalTimeline, ih]
    simp [add_assoc]

theorem le_totalTimeline (pages : List Page) (t : ℚ)
    (hd : ∀ p ∈ pages, 0 ≤ p.duration) : t ≤ totalTimeline pages t := by
  rw [totalTimeline_eq]
  have hs : 0 ≤ (pages.map Page.duration).sum := by
    apply List.sum_nonneg
    intro x hx
    obtain ⟨p, hp, rfl⟩ := List.mem_map.mp hx
    exact hd p hp
  linarith

theorem create_page_video_eq (w h : ℚ) (page : Page) (t : ℚ) :
    create_page_video w h page t =
      some { start := t, duration := page.duration, layers := page_layers w h page } := by
  have hne : page_layers w h page ≠ [] := by
    simp [page_layers]
  simp [create_page_video, hne]

theorem generate_video_clips_getElem (w h : ℚ) (pages : List Page) :
    ∀ (t : ℚ) (i : ℕ),
      (generate_video_clips w h pages t)[i]? =
        (pages[i]?).map fun p => create_page_video w h p (t + pageStart pages i) := by
  induction pages with
  | nil => intro t i; simp [generate_video_clips]
  | cons p rest ih =>
    intro t i
    cases i with
    | zero => simp [generate_video_clips, pageStart_zero]
    | succ j =>
      simp only [generate_video_clips, List.getElem?_cons_succ]
      rw [ih, pageStart_cons_succ]
      simp [add_assoc]

theorem generate_audio_starts_getElem (pages : List Page) :
    ∀ (t : ℚ) (i : ℕ),
      (generate_audio_starts pages t)[i]? =
        (pages[i]?).map fun p =>
          if p.audioOk then some (t + pageStart pages i) else none := by
  induction pages with
  | nil => intro t i; simp [generate_audio_starts]
  | cons p rest ih =>
    intro t i
    cases i with
    | zero => simp [generate_audio_starts, pageStart_zero]
    | succ j =>
      simp only [generate_audio_starts, List.getElem?_cons_succ]
      rw [ih, pageStart_cons_succ]
      simp [add_assoc]

theorem composite_video_duration_cons (c : PageClip) (l : List (Option PageClip)) :
    composite_video_duration (some c :: l) =
      max (c.start + c.duration) (composite_video_duration l) := by
  simp [composite_video_duration, List.filterMap_cons]

theorem composite_video_duration_eq (w h : ℚ) (pages : List Page) :
    ∀ t : ℚ, pages ≠ [] → (∀ p ∈ pages, 0 ≤ p.duration) → 0 ≤ t →
      composite_video_duration (generate_video_clips w h pages t) =
        totalTimeline pages t := by
  induction pages with
  | nil => intro t hne; exact absurd rfl hne
  | cons p rest ih =>
    intro t _ hd ht
    rw [generate_video_clips, create_page_video_eq, composite_video_duration_cons]
    have hp0 : 0 ≤ p.duration := hd p (by simp)
    cases rest with
    | nil =>
      simp only [generate_video_clips, composite_video_duration, List.filterMap_nil,
        List.map_nil, List.foldr_nil, totalTimeline]
      exact max_eq_left (by linarith)
    | cons q qs =>
      have hd' : ∀ x ∈ q :: qs, 0 ≤ x.duration := fun x hx => hd x (by simp [hx])
      rw [ih (t + p.duration) (by simp) hd' (by linarith), totalTimeline]
      exact max_eq_right (le_totalTimeline _ _ hd')

/-! ## Claim theorems -/

/-- C1: for every list of page records processed by `generate_video`, page
`i`'s visual clip and its narration audio track are both placed at the same
start offset, equal to the cumulative sum of the durations of the pages
before it; the master timeline length equals the sum of all page durations;
and consecutive pages neither gap nor overlap (page `i+1` starts exactly
where page `i` ends). -/
theorem C1_timeline_alignment (w h : ℚ) (pages : List Page) (i : ℕ) (p : Page)
    (hp : pages[i]? = some p) (hd : ∀ q ∈ pages, 0 ≤ q.duration) :
    (generate_video_clips w h pages 0)[i]? =
      some (some { start := pageStart pages i, duration := p.duration,
                   layers := page_layers w h p }) ∧
    (generate_audio_starts pages 0)[i]? =
      some (if p.audioOk then some (pageStart pages i) else none) ∧
    pageStart pages (i + 1) = pageStart pages i + p.duration ∧
    totalTimeline pages 0 = (pages.map Page.duration).sum ∧
    composite_video_duration (generate_video_clips w h pages 0) =
      (pages.map Page.duration).sum := by
  have hne : pages ≠ [] := by
    intro hnil
    subst hnil
    simp at hp
  refine ⟨?_, ?_, ?_, ?_, ?_⟩
  · rw [generate_video_clips_getElem, hp]
    simp [create_page_video_eq]
  · rw [generate_audio_starts_getElem, hp]
    simp
  · exact pageStart_succ pages i p hp
  · rw [totalTimeline_eq]
    simp
  · rw [composite_video_duration_eq w h pages 0 hne hd le_rfl, totalTimeline_eq]
    simp

theorem C1_timeline_alignment_witness :
    (([⟨"intro", true, true, 2, 1⟩, ⟨"body", true, true, 3, 2⟩] : List Page)[1]? =
      some ⟨"body", true, true, 3, 2⟩) ∧
    pageStart [⟨"intro", true, true, 2, 1⟩, ⟨"body", true, true, 3, 2⟩] 2 =
      pageStart [⟨"intro", true, true, 2, 1⟩, ⟨"body", true, true, 3, 2⟩] 1 + 3 ∧
    totalTimeline [⟨"intro", true, true, 2, 1⟩, ⟨"body", true, true, 3, 2⟩] 0 = 5 := by
  have h := C1_timeline_alignment 1080 1920
      [⟨"intro", true, true, 2, 1⟩, ⟨"body", true, true, 3, 2⟩] 1
      ⟨"body", true, true, 3, 2⟩ rfl
      (by intro q hq; simp at hq; rcases hq with rfl | rfl <;> norm_num)
  refine ⟨rfl, h.2.2.1, ?_⟩
  rw [h.2.2.2.1]
  simp
  norm_num

/-- C4: for every non-whitespace-only text and speed multiplier greater
than 0, `estimate_audio_duration` lies in `[1/speed, 10/speed]` (the sum of
0.4 per non-space non-newline character and 0.3 per pause punctuation mark
is clamped to `[1, 10]` and then divided by the speed scale), while empty
or whitespace-only text yields exactly 0.5 with no clamping and no speed
division. -/
theorem C4_estimate_bounds (speed : ℚ) (text : String) (hs : 0 < speed) :
    (stripIsEmpty text = true → estimate_audio_duration speed text = 1 / 2) ∧
    (stripIsEmpty text = false →
      1 / speed ≤ estimate_audio_duration speed text ∧
      estimate_audio_duration speed text ≤ 10 / speed) := by
  constructor
  · intro hempty
    simp [estimate_audio_duration, hempty]
  · intro hnon
    have hform : estimate_audio_duration speed text =
        max 1 (min (((text.data.filter fun c => c != ' ' && c != '\n').length : ℚ) * (2/5) +
          ((text.data.count '、' + text.data.count '。' +
            text.data.count '！' + text.data.count '？' : ℕ) : ℚ) * (3/10)) 10) / speed := by
      rw [estimate_audio_duration, if_neg (by simp [hnon])]
    rw [hform]
    constructor
    · gcongr
      exact le_max_left _ _
    · gcongr
      exact max_le (by norm_num) (min_le_right _ _)

theorem C4_estimate_bounds_witness :
    (0 : ℚ) < 2 ∧ stripIsEmpty "こんにちは。" = false ∧
    1 / 2 ≤ estimate_audio_duration 2 "こんにちは。" ∧
    estimate_audio_duration 2 "こんにちは。" ≤ 10 / 2 := by
  refine ⟨by norm_num, by decide, ?_⟩
  exact (C4_estimate_bounds 2 "こんにちは。" (by norm_num)).2 (by decide)

/-- C7: for every page record whose image is missing or unreadable, the
compositor still produces a page clip (it does not fail or return nothing)
made of the unconditional full-canvas white background layer followed by
the caption layers, with the image step skipped. -/
theorem C7_missing_image (w h : ℚ) (page : Page) (t : ℚ)
    (himg : page.imageOk = false) :
    create_page_video w h page t =
      some { start := t, duration := page.duration,
             layers := Layer.whiteBackground page.duration ::
               (if page.text = "" then []
                else create_positioned_text_clips h page.text page.pageNumber) } := by
  rw [create_page_video_eq]
  simp [page_layers, himg]

theorem C7_missing_image_witness :
    (⟨"hi", false, true, 2, 2⟩ : Page).imageOk = false ∧
    create_page_video 1080 1920 ⟨"hi", false, true, 2, 2⟩ 0 =
      some { start := 0, duration := 2,
             layers := [Layer.whiteBackground 2, Layer.caption "hi" false 1248] } := by
  have hparse : parse_and_create_colored_text "hi" = [("hi", false)] := by decide
  have hct : create_positioned_text_clips 1920 "hi" 2 = [Layer.caption "hi" false 1248] := by
    rw [create_positioned_text_clips]
    norm_num [hparse]
    rw [show ((1248 : ℚ)) = ((1248 : ℤ) : ℚ) by norm_num]
    exact pyInt_intCast 1248
  refine ⟨rfl, ?_⟩
  rw [C7_missing_image 1080 1920 ⟨"hi", false, true, 2, 2⟩ 0 rfl]
  simp [hct]

/-- C10: for non-empty text, when the speech query or the synthesis request
fails but the silent-audio fallback file can be written, `synthesize_voice`
returns success with a fixed 3.0-second duration (1.0 seconds for
empty/whitespace-only text); the caller's estimator fallback, taken only on
failure, is therefore reached only when even the silent-file creation
fails. -/
theorem C10_silent_fallback (text : String) (queryOk synthOk : Bool)
    (realDur est : ℚ) (hfail : queryOk = false ∨ synthOk = false) :
    (stripIsEmpty text = false →
      synthesize_voice text queryOk synthOk true realDur = (true, 3) ∧
      main_page_duration (synthesize_voice text queryOk synthOk true realDur) est = 3) ∧
    (stripIsEmpty text = true →
      synthesize_voice text queryOk synthOk true realDur = (true, 1)) ∧
    (∀ writeOk : Bool,
      (synthesize_voice text queryOk synthOk writeOk realDur).1 = false →
      writeOk = false) := by
  refine ⟨?_, ?_, ?_⟩
  · intro hnon
    have hsv : synthesize_voice text queryOk synthOk true realDur = (true, 3) := by
      unfold synthesize_voice
      rw [if_neg (by simp [hnon])]
      rcases hfail with hq | hsk
      · rw [if_pos hq]
        rfl
      · by_cases hq2 : queryOk = false
        · rw [if_pos hq2]
          rfl
        · rw [if_neg hq2, if_pos hsk]
          rfl
    exact ⟨hsv, by simp [main_page_duration, hsv]⟩
  · intro hempty
    unfold synthesize_voice
    rw [if_pos (by simp [hempty])]
    rfl
  · intro writeOk hw
    cases writeOk with
    | false => rfl
    | true =>
      exfalso
      unfold synthesize_voice create_silent_audio at hw
      by_cases he : stripIsEmpty text = true
      · simp [he] at hw
      · by_cases hq2 : queryOk = false
        · simp [he, hq2] at hw
        · by_cases hs2 : synthOk = false
          · simp [he, hq2, hs2] at hw
          · simp [he, hq2, hs2] at hw

theorem C10_silent_fallback_witness :
    (false = false ∨ true = false) ∧
    synthesize_voice "テスト" false true true 5 = (true, 3) ∧
    main_page_duration (synthesize_voice "テスト" false true true 5) 7 = 3 := by
  refine ⟨Or.inl rfl, ?_⟩
  exact (C10_silent_fallback "テスト" false true 5 7 (Or.inl rfl)).1 (by decide)

/-- C2 as stated is false on the code: for the text `a##b##c` the normal
run is `a c` as claimed, but the highlighted run is `   b   ` — the span
content is written back at its offset in the original text including the
markers, onto a spaces copy of the full original — so the highlighted run
keeps the original length 7 rather than the claimed length 3
(original minus 4), and it is not equal to the claimed ` b `. -/
theorem C2_highlight_run_counterexample :
    parse_and_create_colored_text "a##b##c" = [("a c", false), ("   b   ", true)] ∧
    ¬ ("   b   " : String).length = ("a##b##c" : String).length - 4 ∧
    ¬ (("   b   " : String) = " b ") := by
  refine ⟨by decide, by decide, by decide⟩

/-- C2 amended: the highlighted run always has the length of the full
original text (each span's content is copied back at its original offsets,
markers included), while the normal run's length is the original length
minus 4 characters per matched span; `parse("a##b##c")` yields normal run
`a c` and highlighted run `   b   `. -/
theorem C2_highlight_run_amended (text : String) :
    (red_text_of text.data).length = text.data.length ∧
    (normal_text_sub text.data).length + 4 * (red_matches text.data).length =
      text.data.length ∧
    parse_and_create_colored_text "a##b##c" = [("a c", false), ("   b   ", true)] := by
  refine ⟨red_text_of_length text.data, ?_, by decide⟩
  rw [normal_text_sub, red_matches]
  exact subAuxF_scanAuxF_length text.data.length text.data 0 le_rfl

/-- C9 as stated is false on the code: for `a##b\nc##d` the matched span
content `b\nc` contains a newline, yet the normal run is `a   d` — the
whole span content, newline included, is replaced by spaces, so the normal
run contains no newline at all. -/
theorem C9_span_newline_counterexample :
    parse_and_create_colored_text "a##b\nc##d" =
      [("a   d", false), ("   b\nc   ", true)] ∧
    red_matches ("a##b\nc##d").data = [(1, ['b', '\n', 'c'])] ∧
    ("a   d" : String).data.count '\n' = 0 := by
  refine ⟨by decide, by decide, by decide⟩

/-- C9 amended: newlines inside matched spans are replaced by spaces in the
normal run just like the other span characters — the normal run's newline
count is the original's minus the newlines inside spans — while it is the
highlighted run that preserves line structure (spaces copy keeps original
newlines and span content is copied back verbatim, as in the `a##b\nc##d`
example). -/
theorem C9_span_newline_amended (text : String) :
    (normal_text_sub text.data).count '\n' +
      ((red_matches text.data).map (fun m => m.2.count '\n')).sum =
      text.data.count '\n' ∧
    red_text_of ("a##b\nc##d").data = ("   b\nc   ").data := by
  refine ⟨?_, by decide⟩
  rw [normal_text_sub, red_matches]
  exact subAuxF_scanAuxF_count_nl text.data.length text.data 0 le_rfl

/-- C3 as stated is false on the code: the 3-second lead-in trim is applied
only when the source is longer than 3 seconds, so a 2-second source is used
untrimmed (its post-trim duration is 2, not 2 - 3); the fit to the total
duration itself still holds (the 2-second source looped over a 10-second
timeline yields exactly 10). -/
theorem C3_bgm_trim_counterexample :
    bgm_trimmed 2 = 2 ∧ ¬ bgm_trimmed 2 = 2 - 3 ∧ bgm_fit_duration 2 10 = 10 := by
  have h5 : pyInt ((5 : ℚ)) = 5 := by
    rw [show ((5 : ℚ)) = ((5 : ℤ) : ℚ) by norm_num]
    exact pyInt_intCast 5
  refine ⟨by norm_num [bgm_trimmed], by norm_num [bgm_trimmed], ?_⟩
  simp only [bgm_fit_duration]
  norm_num [bgm_trimmed, min_def, h5]

/-- C3 amended: the fixed 3-second lead-in is trimmed only when the source
is longer than 3 seconds (shorter sources are used in full), and for every
source duration greater than 0 and total duration greater than 0 the fitted
background-music track has length exactly the total duration — truncated
when the post-trim source is longer, looped by concatenation and then
truncated when it is shorter. -/
theorem C3_bgm_fit_amended (bgmDur totalDur : ℚ) (hb : 0 < bgmDur)
    (ht : 0 < totalDur) :
    bgm_fit_duration bgmDur totalDur = totalDur ∧
    (3 < bgmDur → bgm_trimmed bgmDur = bgmDur - 3) ∧
    (bgmDur ≤ 3 → bgm_trimmed bgmDur = bgmDur) := by
  have hd1 : 0 < bgm_trimmed bgmDur := by
    rw [bgm_trimmed]
    split
    · next hgt => linarith
    · next hle => linarith
  refine ⟨?_, ?_, ?_⟩
  · simp only [bgm_fit_duration]
    set d1 := bgm_trimmed bgmDur with hd1eq
    by_cases h1 : d1 > totalDur
    · rw [if_pos h1]
    · rw [if_neg h1]
      by_cases h2 : d1 < totalDur
      · rw [if_pos h2]
        have hpos : 0 ≤ totalDur / d1 := le_of_lt (div_pos ht hd1)
        rw [pyInt_of_nonneg hpos]
        have h3 : totalDur / d1 < (⌊totalDur / d1⌋ : ℚ) + 1 := Int.lt_floor_add_one _
        have hlt : totalDur < ((⌊totalDur / d1⌋ : ℚ) + 1) * d1 := by
          calc totalDur = (totalDur / d1) * d1 := by field_simp
            _ < ((⌊totalDur / d1⌋ : ℚ) + 1) * d1 := mul_lt_mul_of_pos_right h3 hd1
        apply min_eq_right
        push_cast
        linarith
      · rw [if_neg h2]
        linarith
  · intro h3
    rw [bgm_trimmed, if_pos h3]
  · intro h3
    rw [bgm_trimmed, if_neg (by linarith)]

theorem C3_bgm_fit_amended_witness :
    (0 : ℚ) < 2 ∧ (0 : ℚ) < 10 ∧ bgm_fit_duration 2 10 = 10 ∧
    ((2 : ℚ) ≤ 3 → bgm_trimmed 2 = 2) := by
  have h := C3_bgm_fit_amended 2 10 (by norm_num) (by norm_num)
  exact ⟨by norm_num, by norm_num, h.1, h.2.2⟩

/-- C5: for every page numbered 1 whose image is resolvable, the image
layer is a square scaled to 0.55 of the canvas width, horizontally
centered, and placed so that its vertical midpoint sits at 70 percent of
the canvas height — the top edge is `0.7 * canvasHeight` minus half the
scaled image size (exactly, whenever that offset is a whole pixel, the
truncation to `int` being the only deviation otherwise). -/
theorem C5_page1_layout (w h : ℚ) (hw : 0 ≤ w)
    (hmid : ∃ k : ℤ, (k : ℚ) = h * (7/10) - (pyInt (w * (55/100)) : ℚ) / 2) :
    ∃ size top : ℤ,
      create_page_specific_image_clip w h 1 = ImagePlacement.staticCentered size top ∧
      size = ⌊w * (55/100)⌋ ∧
      (top : ℚ) + (size : ℚ) / 2 = h * (7/10) := by
  obtain ⟨k, hk⟩ := hmid
  refine ⟨pyInt (w * (55/100)),
    pyInt (h * (7/10) - (pyInt (w * (55/100)) : ℚ) / 2), ?_, ?_, ?_⟩
  · rw [create_page_specific_image_clip, if_pos rfl]
  · exact pyInt_of_nonneg (mul_nonneg hw (by norm_num))
  · rw [← hk, pyInt_intCast]
    linarith [hk]

theorem C5_page1_layout_witness :
    (0 : ℚ) ≤ 1080 ∧
    (∃ size top : ℤ,
      create_page_specific_image_clip 1080 1920 1 = ImagePlacement.staticCentered size top ∧
      size = ⌊(1080 : ℚ) * (55/100)⌋ ∧
      (top : ℚ) + (size : ℚ) / 2 = 1920 * (7/10)) := by
  refine ⟨by norm_num, ?_⟩
  apply C5_page1_layout 1080 1920 (by norm_num)
  refine ⟨1047, ?_⟩
  rw [show ((1080 : ℚ) * (55/100)) = ((594 : ℤ) : ℚ) by norm_num, pyInt_intCast]
  norm_num

/-- C6: for every page numbered 2 or higher whose image is resolvable, the
image is scaled to a fixed 1300-pixel square, center-cropped vertically to
a fixed 900-pixel height (equal margins above and below), and panned
horizontally: for `0 ≤ t ≤ duration` the x position is the linear
interpolation from `canvasWidth - imageWidth` at `t = 0` (right edges
aligned) to `0` at `t = duration` (left edges aligned), while the y
position is fixed at 10 percent of the canvas height. -/
theorem C6_pan_layout (w h d t : ℚ) (n : ℕ) (hn : n ≠ 1) (hd : 0 < d)
    (ht0 : 0 ≤ t) (htd : t ≤ d)
    (hy : ∃ k : ℤ, (k : ℚ) = h * (1/10)) :
    create_page_specific_image_clip w h n =
      ImagePlacement.panned 1300 900 (pyInt (h * (1/10))) ∧
    crop_y1 1300 900 = 200 ∧
    1300 - (crop_y1 1300 900 + 900) = crop_y1 1300 900 ∧
    move_func_x w 1300 d 0 = w - 1300 ∧
    move_func_x w 1300 d d = 0 ∧
    move_func_x w 1300 d t = (1 - t / d) * (w - 1300) + (t / d) * 0 ∧
    ((pyInt (h * (1/10)) : ℚ)) = h * (1/10) := by
  obtain ⟨k, hk⟩ := hy
  have hdne : d ≠ 0 := ne_of_gt hd
  refine ⟨?_, ?_, ?_, ?_, ?_, ?_, ?_⟩
  · rw [create_page_specific_image_clip, if_neg hn]
  · norm_num [crop_y1]
  · norm_num [crop_y1]
  · simp only [move_func_x]
    ring
  · simp only [move_func_x]
    rw [div_self hdne]
    ring
  · simp only [move_func_x]
    ring
  · rw [← hk, pyInt_intCast]

theorem C6_pan_layout_witness :
    (2 : ℕ) ≠ 1 ∧ (0 : ℚ) < 4 ∧ (0 : ℚ) ≤ 1 ∧ (1 : ℚ) ≤ 4 ∧
    move_func_x 1080 1300 4 0 = 1080 - 1300 ∧
    move_func_x 1080 1300 4 4 = 0 ∧
    ((pyInt ((1920 : ℚ) * (1/10)) : ℚ)) = 1920 * (1/10) := by
  have h := C6_pan_layout 1080 1920 4 1 2 (by norm_num) (by norm_num)
    (by norm_num) (by norm_num) ⟨192, by norm_num⟩
  exact ⟨by norm_num, by norm_num, by norm_num, by norm_num,
    h.2.2.2.1, h.2.2.2.2.1, h.2.2.2.2.2.2⟩

/-- C8 as stated is false on the code: when the background-music file is
missing the mixer does return the narration-only tracks without failing,
but the resulting composite's length is the latest narration end time, not
necessarily the total duration — narration tracks `[(0, 2)]` under a
10-second timeline yield a 2-second track, not 10. -/
theorem C8_missing_bgm_counterexample :
    create_final_audio_with_bgm false 30 [(0, 2)] 10 = [(0, 2)] ∧
    composite_audio_duration (create_final_audio_with_bgm false 30 [(0, 2)] 10) = 2 ∧
    ¬ composite_audio_duration (create_final_audio_with_bgm false 30 [(0, 2)] 10) = 10 := by
  have hc : composite_audio_duration (create_final_audio_with_bgm false 30 [(0, 2)] 10) = 2 := by
    simp [create_final_audio_with_bgm, composite_audio_duration]
  refine ⟨by simp [create_final_audio_with_bgm], hc, ?_⟩
  rw [hc]
  norm_num

/-- C8 amended: when the background-music file is missing or unreadable the
mixer raises no exception and returns the narration tracks unchanged (no
bgm track is appended); the resulting track length is the latest narration
end time, which equals the total duration exactly when the narration
extends to the end of the timeline. -/
theorem C8_missing_bgm_amended (narration : List AudioTrack) (bgmDur totalDur : ℚ)
    (hend : composite_audio_duration narration = totalDur) :
    create_final_audio_with_bgm false bgmDur narration totalDur = narration ∧
    composite_audio_duration
      (create_final_audio_with_bgm false bgmDur narration totalDur) = totalDur := by
  constructor
  · simp [create_final_audio_with_bgm]
  · simp [create_final_audio_with_bgm, hend]

theorem C8_missing_bgm_amended_witness :
    composite_audio_duration [((0 : ℚ), (10 : ℚ))] = 10 ∧
    create_final_audio_with_bgm false 30 [(0, 10)] 10 = [(0, 10)] ∧
    composite_audio_duration (create_final_audio_with_bgm false 30 [(0, 10)] 10) = 10 := by
  have hend : composite_audio_duration [((0 : ℚ), (10 : ℚ))] = 10 := by
    simp [composite_audio_duration]
  exact ⟨hend, C8_missing_bgm_amended [(0, 10)] 30 10 hend⟩

end ShortsAI
